import Mathlib

/-!
# Connect-4 robot: Arduino controller (`arduino_controller/sensor_handler.h`)

A shallow embedding of the firmware header.  Every C++ function of the header
is a Lean function on an explicit machine state `State`:

* the global and function-static variables of the header are fields of `State`
  (`pumpStartTime`, `pumpRunning`, `last_data`, `prevPressed`, `pressStart`);
* the output level of each pin the header writes is a field
  (`HIGH` is `true`, `LOW` is `false`);
* `clock` is the time in milliseconds since power-on; `millis()` is an
  `unsigned long`, so it returns `clock % 2^32`; `delay(ms)` advances `clock`;
* every externally visible action (pin write, SPI transfer, serial line,
  blocking delay) is appended, in program order, to `trace`.

Values read from the environment are arguments: the byte returned by
`SPI.transfer(0)` in `handleDiscDetection`, the level returned by
`digitalRead(btn_pin)` in `handleButtonPress`, the `String` given to
`handle_cmd`.  `__builtin_ctz` is undefined on zero, so functions that call it
return `Option`.

The globals `last_change_ms` and `solenoid_state` are never read or written by
live code of the header and are not part of `State`.
-/

namespace SensorHandler

/-! ## Constants of the header -/

def load_pin : Nat := 3
def latch_pin : Nat := 4
def btn_pin : Nat := 5
def btn_ms_time : Nat := 1
def pump_pin : Nat := 8
def release_pump_pin : Nat := 7
def DEBOUNCE_MS : Nat := 1000
def pumpTimeout : Nat := 30000

/-- Pin level `HIGH`. -/
abbrev HIGH : Bool := true
/-- Pin level `LOW`. -/
abbrev LOW : Bool := false

/-- Pin modes used by `pinMode`. -/
inductive Mode where
  | INPUT
  | OUTPUT
  deriving DecidableEq, Repr

/-- Externally visible actions, in the order the firmware performs them. -/
inductive Event where
  | pinMode (pin : Nat) (mode : Mode)
  | pinWrite (pin : Nat) (level : Bool)
  | spi (data : Nat)
  | print (text : String)
  | println (text : String)
  | printlnNum (n : Nat)
  | delay (ms : Nat)
  | delayMicroseconds (us : Nat)
  deriving DecidableEq, Repr

/-- Machine state: clock, pin output levels, the header's variables, trace. -/
structure State where
  clock : Nat
  load_level : Bool
  latch_level : Bool
  pump_level : Bool
  release_level : Bool
  pumpStartTime : Nat
  pumpRunning : Bool
  last_data : Nat
  prevPressed : Bool
  pressStart : Nat
  trace : List Event
  deriving DecidableEq, Repr

/-- Power-on state: variables as initialised in the header, all outputs low. -/
def boot : State :=
  { clock := 0, load_level := LOW, latch_level := LOW, pump_level := LOW,
    release_level := LOW, pumpStartTime := 0, pumpRunning := false,
    last_data := 0, prevPressed := LOW, pressStart := 0, trace := [] }

/-! ## Arduino primitives -/

/-- Append one action to the trace. -/
def emit (e : Event) (s : State) : State :=
  { s with trace := s.trace ++ [e] }

/-- The environment lets time pass: the clock reads `t` afterwards. -/
def atClock (t : Nat) (s : State) : State :=
  { s with clock := t }

/-- Value of `millis()`: a 32-bit `unsigned long`. -/
def millis (s : State) : Nat := s.clock % 2 ^ 32

/-- Subtraction of two `unsigned long` values (modulo `2^32`). -/
def usub32 (a b : Nat) : Nat := (a % 2 ^ 32 + 2 ^ 32 - b % 2 ^ 32) % 2 ^ 32

def pinMode (pin : Nat) (mode : Mode) (s : State) : State :=
  emit (.pinMode pin mode) s

def digitalWrite (pin : Nat) (level : Bool) (s : State) : State :=
  let s := emit (.pinWrite pin level) s
  if pin = pump_pin then { s with pump_level := level }
  else if pin = release_pump_pin then { s with release_level := level }
  else if pin = load_pin then { s with load_level := level }
  else if pin = latch_pin then { s with latch_level := level }
  else s

/-- Blocking `delay(ms)`: the clock advances by `ms`. -/
def delay (ms : Nat) (s : State) : State :=
  emit (.delay ms) { s with clock := s.clock + ms }

def delayMicroseconds (us : Nat) (s : State) : State :=
  emit (.delayMicroseconds us) s

/-- Output side of `SPI.transfer(data)`: one byte is shifted out. -/
def spiTransfer (data : Nat) (s : State) : State :=
  emit (.spi (data % 256)) s

def serialPrint (text : String) (s : State) : State :=
  emit (.print text) s

def serialPrintln (text : String) (s : State) : State :=
  emit (.println text) s

def serialPrintlnNum (n : Nat) (s : State) : State :=
  emit (.printlnNum n) s

/-- Trailing zero bits of `x`, scanning at most `fuel` bit positions. -/
def ctzAux : Nat → Nat → Nat
  | 0, _ => 0
  | fuel + 1, x => if x % 2 = 1 then 0 else 1 + ctzAux fuel (x / 2)

/-- GCC `__builtin_ctz` on an `unsigned int` that holds a promoted byte:
the number of trailing 0-bits, undefined (`none`) when the argument is 0. -/
def builtin_ctz (x : Nat) : Option Nat :=
  if x = 0 then none else some (ctzAux 16 x)

/-! ## The functions of the header -/

def setup_sensors (s : State) : State :=
  let s := pinMode latch_pin .OUTPUT s
  let s := pinMode load_pin .OUTPUT s
  let s := pinMode btn_pin .INPUT s
  let s := pinMode pump_pin .OUTPUT s
  let s := pinMode release_pump_pin .OUTPUT s
  let s := digitalWrite load_pin HIGH s
  let s := digitalWrite latch_pin HIGH s
  let s := digitalWrite pump_pin LOW s
  digitalWrite release_pump_pin LOW s

/-- The function `writeToSr(byte data)`; the byte conversion of the argument
is the `% 256` of `spiTransfer`. -/
def writeToSr (data : Nat) (s : State) : State :=
  let s := digitalWrite latch_pin LOW s
  let s := spiTransfer data s
  digitalWrite latch_pin HIGH s

def turnOnPump (s : State) : State :=
  let s := digitalWrite pump_pin HIGH s
  let s := digitalWrite release_pump_pin LOW s
  let s := serialPrintln "LOG: PUMP ON" s
  let s := { s with pumpStartTime := millis s }
  { s with pumpRunning := true }

def shutOffPump (s : State) : State :=
  let s := digitalWrite pump_pin LOW s
  let s := digitalWrite release_pump_pin LOW s
  let s := { s with pumpRunning := false }
  serialPrintln "LOG: pump off" s

def releasePump (s : State) : State :=
  let s := digitalWrite pump_pin LOW s
  let s := digitalWrite release_pump_pin HIGH s
  let s := { s with pumpRunning := false }
  serialPrintln "LOG: pump release" s

def pump_on_off (s : State) : State :=
  let s := turnOnPump s
  let s := serialPrintln "pump on" s
  let s := delay 2000 s
  let s := releasePump s
  let s := serialPrintln "pump release" s
  let s := delay 2000 s
  let s := shutOffPump s
  serialPrintln "pump off" s

/-- The watchdog `handlePump()`; `millis() - pumpStartTime` is a subtraction
of `unsigned long` values. -/
def handlePump (s : State) : State :=
  if s.pumpRunning && decide (usub32 (millis s) s.pumpStartTime ≥ pumpTimeout) then
    shutOffPump s
  else s

def update165 (s : State) : State :=
  let s := digitalWrite load_pin LOW s
  let s := delayMicroseconds 5 s
  let s := digitalWrite load_pin HIGH s
  delayMicroseconds 5 s

/-- The statement `data = (~data) & 0b01111111;` on the byte `data`:
complement on 8 bits, then the 7-bit mask. -/
def normalise (raw : Nat) : Nat :=
  ((raw % 256) ^^^ 255) &&& 0x7F

/-- One call of `handleDiscDetection`; `raw` is the byte that
`SPI.transfer(0)` returns.  `none` means `__builtin_ctz(0)` was evaluated. -/
def handleDiscDetection (raw : Nat) (s : State) : Option State :=
  let s := update165 s
  let s := spiTransfer 0 s
  let data := raw % 256
  let data := normalise data
  if data ≠ 0 ∧ s.last_data = 0 then
    let s := serialPrintlnNum data s
    let s := serialPrint "DROP " s
    match builtin_ctz data with
    | none => none
    | some slot =>
      let s := serialPrintlnNum slot s
      some { s with last_data := data }
  else if data = 0 ∧ s.last_data ≠ 0 then
    let s := serialPrintln "LOG light renewed :)" s
    let s := serialPrintln "faking picking up a pick then puttine it down" s
    let s := pump_on_off s
    some { s with last_data := data }
  else
    some { s with last_data := data }

def bit_index (x : Nat) : Option Nat :=
  builtin_ctz (x % 256)

/-- One call of `handleButtonPress`; `pressed` is the level that
`digitalRead(btn_pin)` returns. -/
def handleButtonPress (pressed : Bool) (s : State) : State :=
  if pressed ≠ s.prevPressed then
    let s := { s with prevPressed := pressed }
    if pressed = HIGH then
      { s with pressStart := millis s }
    else if usub32 (millis s) s.pressStart ≥ btn_ms_time then
      serialPrintln "START" s
    else s
  else s

/-- The loop `for (int i = 0; i < 7; ++i) { ... }` of `turn_off_solenoids`,
from loop counter `i`, running at most `fuel` tests of the loop condition. -/
def turn_off_solenoids_loop : Nat → Nat → State → State
  | 0, _, s => s
  | fuel + 1, i, s =>
    if i < 7 then
      let s := serialPrintln ("LOG turn off solenoid " ++ toString i) s
      let s := writeToSr (1 <<< i) s
      let s := delay 2000 s
      turn_off_solenoids_loop fuel (i + 1) s
    else s

def turn_off_solenoids (s : State) : State :=
  let s := turn_off_solenoids_loop 8 0 s
  writeToSr 0 s

/-- The dispatcher `handle_cmd(String cmd)`; `==` on an Arduino `String` and a
literal is exact, case-sensitive equality. -/
def handle_cmd (cmd : String) (s : State) : State :=
  if cmd = "RESET" then turn_off_solenoids s
  else if cmd = "PUMP ON" then turnOnPump s
  else if cmd = "PUMP OFF" then shutOffPump s
  else if cmd = "PUMP RELEASE" then releasePump s
  else s

/-! ## Observers used to state the properties -/

/-- The state with its trace forgotten: variables, pin levels and clock. -/
def eraseTrace (s : State) : State :=
  { s with trace := [] }

/-- The actions appended to the trace between state `s` and a later `t`. -/
def emitted (s t : State) : List Event :=
  t.trace.drop s.trace.length

/-- The actions every call of `handleDiscDetection` starts with: the load
pulse of `update165()` and the byte shifted out by `SPI.transfer(0)`. -/
def scanActions : List Event :=
  [.pinWrite load_pin LOW, .delayMicroseconds 5, .pinWrite load_pin HIGH,
   .delayMicroseconds 5, .spi 0]

/-- The actions of one `pump_on_off()`. -/
def pumpCycleActions : List Event :=
  [.pinWrite pump_pin HIGH, .pinWrite release_pump_pin LOW, .println "LOG: PUMP ON",
   .println "pump on", .delay 2000,
   .pinWrite pump_pin LOW, .pinWrite release_pump_pin HIGH, .println "LOG: pump release",
   .println "pump release", .delay 2000,
   .pinWrite pump_pin LOW, .pinWrite release_pump_pin LOW, .println "LOG: pump off",
   .println "pump off"]

/-- The actions of one `writeToSr(data)`: latch low, byte out, latch high. -/
def srWriteActions (data : Nat) : List Event :=
  [.pinWrite latch_pin LOW, .spi data, .pinWrite latch_pin HIGH]

/-- The bytes sent by `SPI.transfer`, in order. -/
def spiBytes : List Event → List Nat
  | [] => []
  | .spi d :: es => d :: spiBytes es
  | _ :: es => spiBytes es

/-- Writes to one of the two pump pins, and blocking waits. -/
def isActuation : Event → Bool
  | .pinWrite pin _ => pin = pump_pin || pin = release_pump_pin
  | .delay _ => true
  | _ => false

/-- The actuator/wait sequence of a list of actions. -/
def actuatorSeq (evs : List Event) : List Event :=
  evs.filter isActuation

/-- Levels `(drive, release)` of the pump pins after one more action. -/
def pumpPinsAfter (p : Bool × Bool) : Event → Bool × Bool
  | .pinWrite pin level =>
    if pin = pump_pin then (level, p.2)
    else if pin = release_pump_pin then (p.1, level)
    else p
  | _ => p

/-- Levels `(drive, release, ms)` in force during each blocking wait, when the
actions are replayed from pump pin levels `p`. -/
def heldLevels : Bool × Bool → List Event → List (Bool × Bool × Nat)
  | _, [] => []
  | p, .delay ms :: es => (p.1, p.2, ms) :: heldLevels p es
  | p, e :: es => heldLevels (pumpPinsAfter p e) es

/-- Levels `(drive, release)` right after each single write to a pump pin,
when the actions are replayed from pump pin levels `p`. -/
def pumpPinHistory : Bool × Bool → List Event → List (Bool × Bool)
  | _, [] => []
  | p, .pinWrite pin level :: es =>
    if pin = pump_pin ∨ pin = release_pump_pin then
      pumpPinsAfter p (.pinWrite pin level) ::
        pumpPinHistory (pumpPinsAfter p (.pinWrite pin level)) es
    else pumpPinHistory p es
  | p, _ :: es => pumpPinHistory p es

/-- The calls a main loop or a serial line can make, and the passing of time. -/
inductive Op where
  | turnOnPump
  | releasePump
  | shutOffPump
  | handlePump
  | pump_on_off
  | handle_cmd (cmd : String)
  | tick (t : Nat)
  deriving DecidableEq, Repr

/-- Effect of one call; `tick t` is the environment setting the clock to `t`. -/
def Op.run : Op → State → State
  | .turnOnPump, s => SensorHandler.turnOnPump s
  | .releasePump, s => SensorHandler.releasePump s
  | .shutOffPump, s => SensorHandler.shutOffPump s
  | .handlePump, s => SensorHandler.handlePump s
  | .pump_on_off, s => SensorHandler.pump_on_off s
  | .handle_cmd cmd, s => SensorHandler.handle_cmd cmd s
  | .tick t, s => atClock t s

/-- Effect of a finite sequence of calls, first call first. -/
def runOps (ops : List Op) (s : State) : State :=
  ops.foldl (fun st op => op.run st) s

/-- A call of the watchdog or the passing of time: no explicit pump call. -/
def Op.isWatchdogOrTick : Op → Bool
  | .handlePump => true
  | .tick _ => true
  | _ => false

/-- The two edges `handleDiscDetection` reports. -/
inductive Edge where
  | Rising
  | Falling
  deriving DecidableEq, Repr

/-- The edge an action reports: `DROP ` is printed on a rising edge only,
`LOG light renewed :)` on a falling edge only. -/
def edgeOf : Event → Option Edge
  | .print text => if text = "DROP " then some .Rising else none
  | .println text => if text = "LOG light renewed :)" then some .Falling else none
  | _ => none

/-- The edges reported by a list of actions, in order. -/
def edgeReports (evs : List Event) : List Edge :=
  evs.filterMap edgeOf

/-- Successive calls of `handleDiscDetection`, one per raw byte, first byte
first. -/
def runTicks : List Nat → State → Option State
  | [], s => some s
  | raw :: raws, s =>
    match handleDiscDetection raw s with
    | none => none
    | some t => runTicks raws t

/-- The loop `while (x >>= 1) i++;` of the commented-out body of `bit_index`,
on the byte `x`, running at most `fuel` tests of the loop condition. -/
def bit_index_loop : Nat → Nat → Nat → Nat
  | 0, _, i => i
  | fuel + 1, x, i =>
    let x := (x >>> 1) % 256
    if x ≠ 0 then bit_index_loop fuel x (i + 1) else i

/-- The commented-out body of `bit_index`:
`int i = 0; while (x >>= 1) i++; return i;`. -/
def bit_index_commented (x : Nat) : Nat :=
  bit_index_loop 9 (x % 256) 0

/-- The pump flag agrees with the drive pin, and the pins are not both high. -/
def PumpInv (s : State) : Prop :=
  (s.pumpRunning = true ↔ s.pump_level = HIGH) ∧
    ¬ (s.pump_level = HIGH ∧ s.release_level = HIGH)

/-! ## Basic facts -/

theorem turnOnPump_eq (s : State) :
    turnOnPump s =
      { s with
        pump_level := HIGH, release_level := LOW,
        pumpStartTime := s.clock % 2 ^ 32, pumpRunning := true,
        trace := s.trace ++ [.pinWrite pump_pin HIGH, .pinWrite release_pump_pin LOW,
          .println "LOG: PUMP ON"] } := by
  simp [turnOnPump, digitalWrite, emit, serialPrintln, millis, pump_pin, release_pump_pin]

theorem shutOffPump_eq (s : State) :
    shutOffPump s =
      { s with
        pump_level := LOW, release_level := LOW, pumpRunning := false,
        trace := s.trace ++ [.pinWrite pump_pin LOW, .pinWrite release_pump_pin LOW,
          .println "LOG: pump off"] } := by
  simp [shutOffPump, digitalWrite, emit, serialPrintln, pump_pin, release_pump_pin]

theorem releasePump_eq (s : State) :
    releasePump s =
      { s with
        pump_level := LOW, release_level := HIGH, pumpRunning := false,
        trace := s.trace ++ [.pinWrite pump_pin LOW, .pinWrite release_pump_pin HIGH,
          .println "LOG: pump release"] } := by
  simp [releasePump, digitalWrite, emit, serialPrintln, pump_pin, release_pump_pin]

theorem pump_on_off_eq (s : State) :
    pump_on_off s =
      { s with
        clock := s.clock + 2000 + 2000,
        pump_level := LOW, release_level := LOW,
        pumpStartTime := s.clock % 2 ^ 32, pumpRunning := false,
        trace := s.trace ++ pumpCycleActions } := by
  simp [pump_on_off, turnOnPump_eq, shutOffPump_eq, releasePump_eq, delay, emit,
    serialPrintln, pumpCycleActions]

theorem scan_eq (s : State) :
    spiTransfer 0 (update165 s) =
      { s with load_level := HIGH, trace := s.trace ++ scanActions } := by
  simp [spiTransfer, update165, digitalWrite, delayMicroseconds, emit, scanActions,
    load_pin, pump_pin, release_pump_pin]

/-- The actions of one `turn_off_solenoids()`. -/
theorem turn_off_solenoids_eq (s : State) :
    turn_off_solenoids s =
      { s with
        clock := s.clock + 2000 + 2000 + 2000 + 2000 + 2000 + 2000 + 2000,
        latch_level := HIGH,
        trace := s.trace ++ ((List.range 7).flatMap (fun i =>
          Event.println ("LOG turn off solenoid " ++ toString i) ::
            (srWriteActions (1 <<< i) ++ [Event.delay 2000]))
          ++ srWriteActions 0) } := by
  simp [turn_off_solenoids, turn_off_solenoids_loop, writeToSr, digitalWrite, delay,
    spiTransfer, serialPrintln, emit, srWriteActions, latch_pin, pump_pin,
    release_pump_pin, load_pin, List.range, List.range.loop, List.flatMap]

theorem handlePump_cases (s : State) :
    handlePump s = s ∨ handlePump s = shutOffPump s := by
  unfold handlePump
  split
  · exact Or.inr rfl
  · exact Or.inl rfl

theorem handle_cmd_cases (cmd : String) (s : State) :
    handle_cmd cmd s = turn_off_solenoids s ∨ handle_cmd cmd s = turnOnPump s ∨
      handle_cmd cmd s = shutOffPump s ∨ handle_cmd cmd s = releasePump s ∨
      handle_cmd cmd s = s := by
  unfold handle_cmd
  split
  · exact Or.inl rfl
  · split
    · exact Or.inr (Or.inl rfl)
    · split
      · exact Or.inr (Or.inr (Or.inl rfl))
      · split
        · exact Or.inr (Or.inr (Or.inr (Or.inl rfl)))
        · exact Or.inr (Or.inr (Or.inr (Or.inr rfl)))

theorem pumpInv_setup : PumpInv (setup_sensors boot) := by
  simp [PumpInv, setup_sensors, boot, pinMode, digitalWrite, emit, load_pin, latch_pin,
    btn_pin, pump_pin, release_pump_pin]

theorem pumpInv_step (op : Op) (s : State) (h : PumpInv s) : PumpInv (op.run s) := by
  have hOn : PumpInv (turnOnPump s) := by simp [PumpInv, turnOnPump_eq]
  have hOff : PumpInv (shutOffPump s) := by simp [PumpInv, shutOffPump_eq]
  have hRel : PumpInv (releasePump s) := by simp [PumpInv, releasePump_eq]
  cases op with
  | turnOnPump => exact hOn
  | releasePump => exact hRel
  | shutOffPump => exact hOff
  | handlePump =>
    rcases handlePump_cases s with e | e
    · simpa [Op.run, e] using h
    · simpa [Op.run, e] using hOff
  | pump_on_off => simp [Op.run, PumpInv, pump_on_off_eq]
  | handle_cmd cmd =>
    rcases handle_cmd_cases cmd s with e | e | e | e | e
    · simpa [Op.run, e, PumpInv, turn_off_solenoids_eq] using h
    · simpa [Op.run, e] using hOn
    · simpa [Op.run, e] using hOff
    · simpa [Op.run, e] using hRel
    · simpa [Op.run, e] using h
  | tick t => simpa [Op.run, PumpInv, atClock] using h

theorem pumpInv_runOps (ops : List Op) : ∀ s, PumpInv s → PumpInv (runOps ops s) := by
  induction ops with
  | nil => intro s h; simpa [runOps] using h
  | cons op ops ih =>
    intro s h
    have := ih (op.run s) (pumpInv_step op s h)
    simpa [runOps] using this

theorem normalise_lt (raw : Nat) : normalise raw < 128 := by
  have h : normalise raw ≤ 0x7F := Nat.and_le_right
  omega

set_option maxRecDepth 100000 in
theorem normalise_byte_table :
    ∀ r, r < 256 → normalise r = (255 - r) % 128 ∧
      ∀ i, i < 7 → (normalise r).testBit i = !(r.testBit i) := by
  decide

theorem normalise_arith (raw : Nat) :
    normalise (raw % 256) = (255 - raw % 256) % 128 :=
  (normalise_byte_table (raw % 256) (Nat.mod_lt _ (by decide))).1

theorem handleDiscDetection_congr (raw raw' : Nat) (s : State)
    (h : normalise (raw % 256) = normalise (raw' % 256)) :
    handleDiscDetection raw s = handleDiscDetection raw' s := by
  simp only [handleDiscDetection, h]

/-- Every call of `handleDiscDetection` returns, and stores the frame. -/
theorem handleDiscDetection_stores (raw : Nat) (s : State) :
    ∃ t, handleDiscDetection raw s = some t ∧ t.last_data = normalise (raw % 256) := by
  by_cases hd : normalise (raw % 256) = 0
  · by_cases hl : s.last_data = 0
    · refine ⟨{ spiTransfer 0 (update165 s) with last_data := normalise (raw % 256) }, ?_, rfl⟩
      simp [handleDiscDetection, scan_eq, hd, hl]
    · refine ⟨{ pump_on_off (serialPrintln "faking picking up a pick then puttine it down"
          (serialPrintln "LOG light renewed :)" (spiTransfer 0 (update165 s)))) with
          last_data := normalise (raw % 256) }, ?_, rfl⟩
      simp [handleDiscDetection, scan_eq, hd, hl]
  · by_cases hl : s.last_data = 0
    · refine ⟨{ serialPrintlnNum (ctzAux 16 (normalise (raw % 256)))
          (serialPrint "DROP " (serialPrintlnNum (normalise (raw % 256))
            (spiTransfer 0 (update165 s)))) with last_data := normalise (raw % 256) }, ?_, rfl⟩
      simp [handleDiscDetection, scan_eq, builtin_ctz, hd, hl]
    · refine ⟨{ spiTransfer 0 (update165 s) with last_data := normalise (raw % 256) }, ?_, rfl⟩
      simp [handleDiscDetection, scan_eq, hd, hl]

theorem ctzAux_spec : ∀ (fuel x : Nat), 0 < x → x < 2 ^ fuel →
    x.testBit (ctzAux fuel x) = true ∧ ∀ j, j < ctzAux fuel x → x.testBit j = false
  | 0, x, hx, hlt => by simp at hlt; omega
  | fuel + 1, x, hx, hlt => by
    by_cases hodd : x % 2 = 1
    · simp [ctzAux, hodd, Nat.testBit_zero]
    · have hpos : 0 < x / 2 := by omega
      have hlt2 : x / 2 < 2 ^ fuel := by
        rw [pow_succ] at hlt
        omega
      obtain ⟨hset, hclr⟩ := ctzAux_spec fuel (x / 2) hpos hlt2
      have hk : ctzAux (fuel + 1) x = ctzAux fuel (x / 2) + 1 := by
        simp [ctzAux, hodd, Nat.add_comm]
      rw [hk]
      refine ⟨by rw [Nat.testBit_succ]; exact hset, ?_⟩
      intro j hj
      cases j with
      | zero => simp [Nat.testBit_zero, hodd]
      | succ j => rw [Nat.testBit_succ]; exact hclr j (by omega)

theorem ctzAux_lt : ∀ (fuel x : Nat), 0 < x → x < 2 ^ fuel → ctzAux fuel x < fuel
  | 0, x, hx, hlt => by simp at hlt; omega
  | fuel + 1, x, hx, hlt => by
    by_cases hodd : x % 2 = 1
    · simp [ctzAux, hodd]
    · have hpos : 0 < x / 2 := by omega
      have hlt2 : x / 2 < 2 ^ fuel := by
        rw [pow_succ] at hlt
        omega
      have ih := ctzAux_lt fuel (x / 2) hpos hlt2
      simp [ctzAux, hodd]
      omega

theorem usub32_elapsed (t e c : Nat) (hc : c % 2 ^ 32 = (t + e) % 2 ^ 32)
    (he : e < 2 ^ 32) : usub32 (c % 2 ^ 32) (t % 2 ^ 32) = e := by
  unfold usub32
  norm_num at hc he ⊢
  omega

/-- The watchdog on a running pump: it acts exactly from 30000 ms on. -/
theorem handlePump_running (s : State) (hr : s.pumpRunning = true) :
    (30000 ≤ usub32 (millis s) s.pumpStartTime → handlePump s = shutOffPump s) ∧
    (usub32 (millis s) s.pumpStartTime < 30000 → handlePump s = s) := by
  constructor
  · intro h
    simp [handlePump, hr, pumpTimeout, h]
  · intro h
    simp [handlePump, hr, pumpTimeout, h]

/-- The watchdog on a pump that is not running does nothing. -/
theorem handlePump_not_running (s : State) (hr : s.pumpRunning = false) :
    handlePump s = s := by
  simp [handlePump, hr]

/-- Unsigned subtraction of two clock readings is the true elapsed time, as
long as less than `2^32` ms elapsed. -/
theorem usub32_true_elapsed (t now : Nat) (h1 : t ≤ now) (h2 : now - t < 2 ^ 32) :
    usub32 (now % 2 ^ 32) (t % 2 ^ 32) = now - t := by
  have h := usub32_elapsed t (now - t) now (by rw [Nat.add_sub_cancel' h1]) h2
  exact h

/-- While only the watchdog runs and time passes, a released pump stays
released. -/
theorem released_stays (ops : List Op) :
    ∀ s : State, (∀ op ∈ ops, op.isWatchdogOrTick = true) →
      s.pumpRunning = false → s.pump_level = LOW → s.release_level = HIGH →
      (runOps ops s).pumpRunning = false ∧ (runOps ops s).pump_level = LOW ∧
        (runOps ops s).release_level = HIGH := by
  induction ops with
  | nil => intro s _ h1 h2 h3; exact ⟨h1, h2, h3⟩
  | cons op ops ih =>
    intro s hops h1 h2 h3
    have hop : op.isWatchdogOrTick = true := hops op (List.mem_cons_self _ _)
    have hrest : ∀ o ∈ ops, o.isWatchdogOrTick = true :=
      fun o ho => hops o (List.mem_cons_of_mem _ ho)
    have hstep : (op.run s).pumpRunning = false ∧ (op.run s).pump_level = LOW ∧
        (op.run s).release_level = HIGH := by
      cases op with
      | handlePump =>
        have e : handlePump s = s := handlePump_not_running s h1
        simp only [Op.run, e]
        exact ⟨h1, h2, h3⟩
      | tick t => exact ⟨h1, h2, h3⟩
      | turnOnPump => simp [Op.isWatchdogOrTick] at hop
      | releasePump => simp [Op.isWatchdogOrTick] at hop
      | shutOffPump => simp [Op.isWatchdogOrTick] at hop
      | pump_on_off => simp [Op.isWatchdogOrTick] at hop
      | handle_cmd cmd => simp [Op.isWatchdogOrTick] at hop
    have := ih (op.run s) hrest hstep.1 hstep.2.1 hstep.2.2
    simpa [runOps] using this

/-- The three outcomes of one call of `handleDiscDetection`, with the state
each one returns. -/
theorem tick_cases (raw : Nat) (s : State) :
    (normalise (raw % 256) ≠ 0 ∧ s.last_data = 0 ∧
      handleDiscDetection raw s = some
        { s with
          load_level := HIGH, last_data := normalise (raw % 256),
          trace := s.trace ++ (scanActions ++
            [.printlnNum (normalise (raw % 256)), .print "DROP ",
              .printlnNum (ctzAux 16 (normalise (raw % 256)))]) }) ∨
    (normalise (raw % 256) = 0 ∧ s.last_data ≠ 0 ∧
      handleDiscDetection raw s = some
        { s with
          clock := s.clock + 2000 + 2000, load_level := HIGH,
          pump_level := LOW, release_level := LOW,
          pumpStartTime := s.clock % 2 ^ 32, pumpRunning := false,
          last_data := normalise (raw % 256),
          trace := s.trace ++ (scanActions ++
            (Event.println "LOG light renewed :)" ::
              Event.println "faking picking up a pick then puttine it down" ::
              pumpCycleActions)) }) ∨
    (¬ (normalise (raw % 256) ≠ 0 ∧ s.last_data = 0) ∧
      ¬ (normalise (raw % 256) = 0 ∧ s.last_data ≠ 0) ∧
      handleDiscDetection raw s = some
        { s with
          load_level := HIGH, last_data := normalise (raw % 256),
          trace := s.trace ++ scanActions }) := by
  by_cases hd : normalise (raw % 256) = 0
  · by_cases hl : s.last_data = 0
    · right; right
      simp [handleDiscDetection, scan_eq, hd, hl]
    · right; left
      simp [handleDiscDetection, scan_eq, pump_on_off_eq, serialPrintln, emit, hd, hl]
  · by_cases hl : s.last_data = 0
    · left
      simp [handleDiscDetection, scan_eq, builtin_ctz, serialPrintlnNum, serialPrint, emit,
        hd, hl]
    · right; right
      simp [handleDiscDetection, scan_eq, hd, hl]

/-- What one call of `handleDiscDetection` reports: one rising edge, one
falling edge with one pump start, or nothing. -/
theorem tick_edges (raw : Nat) (s : State) :
    ∃ t a, handleDiscDetection raw s = some t ∧ t.trace = s.trace ++ a ∧
      t.last_data = normalise (raw % 256) ∧
      ((normalise (raw % 256) ≠ 0 ∧ s.last_data = 0 ∧ edgeReports a = [.Rising] ∧
          a.count (.println "LOG: PUMP ON") = 0 ∧ a.count (.print "DROP ") = 1) ∨
        (normalise (raw % 256) = 0 ∧ s.last_data ≠ 0 ∧ edgeReports a = [.Falling] ∧
          a.count (.println "LOG: PUMP ON") = 1 ∧ a.count (.print "DROP ") = 0) ∨
        ((s.last_data = 0 ↔ normalise (raw % 256) = 0) ∧ edgeReports a = [] ∧
          a.count (.println "LOG: PUMP ON") = 0 ∧ a.count (.print "DROP ") = 0)) := by
  rcases tick_cases raw s with ⟨hd, hl, e⟩ | ⟨hd, hl, e⟩ | ⟨h1, h2, e⟩
  · refine ⟨_, _, e, rfl, rfl, Or.inl ⟨hd, hl, ?_, ?_, ?_⟩⟩
    · simp [edgeReports, edgeOf, scanActions]
    · simp [scanActions]
    · simp [scanActions]
  · refine ⟨_, _, e, rfl, rfl, Or.inr (Or.inl ⟨hd, hl, ?_, ?_, ?_⟩)⟩
    · simp [edgeReports, edgeOf, scanActions, pumpCycleActions]
    · simp [scanActions, pumpCycleActions]
    · simp [scanActions, pumpCycleActions]
  · refine ⟨_, _, e, rfl, rfl, Or.inr (Or.inr ⟨?_, ?_, ?_, ?_⟩)⟩
    · constructor
      · intro hl
        by_contra hd
        exact h1 ⟨hd, hl⟩
      · intro hd
        by_contra hl
        exact h2 ⟨hd, hl⟩
    · simp [edgeReports, edgeOf, scanActions]
    · simp [scanActions]
    · simp [scanActions]

/-- Edges reported over a run of calls alternate; the first one is rising
when the stored frame is 0 and falling otherwise. -/
theorem runTicks_edges (raws : List Nat) :
    ∀ s : State, ∃ t a, runTicks raws s = some t ∧ t.trace = s.trace ++ a ∧
      List.Chain' (fun x y => x ≠ y) (edgeReports a) ∧
      (∀ x ∈ (edgeReports a).head?, x = if s.last_data = 0 then Edge.Rising else Edge.Falling) ∧
      (edgeReports a).count .Falling ≤
        (edgeReports a).count .Rising + (if s.last_data = 0 then 0 else 1) ∧
      a.count (.println "LOG: PUMP ON") = (edgeReports a).count .Falling ∧
      a.count (.print "DROP ") = (edgeReports a).count .Rising := by
  induction raws with
  | nil =>
    intro s
    exact ⟨s, [], rfl, by simp, by simp [edgeReports], by simp [edgeReports],
      by simp [edgeReports], by simp [edgeReports], by simp [edgeReports]⟩
  | cons r rs ih =>
    intro s
    obtain ⟨u, a1, hu, hut, hul, hcase⟩ := tick_edges r s
    obtain ⟨t, a2, ht, htt, hchain, hhead, hcount, hpump, hdrop⟩ := ih u
    have hrun : runTicks (r :: rs) s = some t := by
      simp [runTicks, hu, ht]
    have htrace : t.trace = s.trace ++ (a1 ++ a2) := by
      rw [htt, hut, List.append_assoc]
    have happ : edgeReports (a1 ++ a2) = edgeReports a1 ++ edgeReports a2 := by
      simp [edgeReports]
    refine ⟨t, a1 ++ a2, hrun, htrace, ?_⟩
    simp only [happ, List.count_append]
    rcases hcase with ⟨hd, hl, he, hp, hdr⟩ | ⟨hd, hl, he, hp, hdr⟩ | ⟨hiff, he, hp, hdr⟩
    · have hul0 : u.last_data ≠ 0 := by rw [hul]; exact hd
      simp only [hul0, if_false] at hhead hcount
      rw [he, hp, hdr, hpump, hdrop]
      refine ⟨?_, ?_, ?_, ?_, ?_⟩
      · rw [List.singleton_append, List.chain'_cons']
        refine ⟨?_, hchain⟩
        intro y hy
        rw [hhead y hy]
        decide
      · simp [hl]
      · simp [hl]
        omega
      · simp
      · simp
    · have hul0 : u.last_data = 0 := by rw [hul]; exact hd
      simp only [hul0, if_true] at hhead hcount
      rw [he, hp, hdr, hpump, hdrop]
      refine ⟨?_, ?_, ?_, ?_, ?_⟩
      · rw [List.singleton_append, List.chain'_cons']
        refine ⟨?_, hchain⟩
        intro y hy
        rw [hhead y hy]
        decide
      · simp [hl]
      · simp [hl]
        omega
      · simp
      · simp
    · have hsame : (if u.last_data = 0 then Edge.Rising else Edge.Falling) =
          (if s.last_data = 0 then Edge.Rising else Edge.Falling) := by
        rw [hul]
        by_cases h0 : s.last_data = 0
        · simp [h0, hiff.1 h0]
        · have : normalise (r % 256) ≠ 0 := fun h => h0 (hiff.2 h)
          simp [h0, this]
      have hsame2 : (if u.last_data = 0 then 0 else 1) = (if s.last_data = 0 then 0 else 1) := by
        rw [hul]
        by_cases h0 : s.last_data = 0
        · simp [h0, hiff.1 h0]
        · have : normalise (r % 256) ≠ 0 := fun h => h0 (hiff.2 h)
          simp [h0, this]
      rw [hsame] at hhead
      rw [hsame2] at hcount
      rw [he, hp, hdr, hpump, hdrop]
      simp only [List.nil_append, List.count_nil, Nat.zero_add]
      exact ⟨hchain, hhead, hcount, trivial, trivial⟩

/-- The commented-out loop of `bit_index` leaves through its condition: on a
value below `2^n`, any fuel of at least `n + 1` gives the same result. -/
theorem bit_index_loop_fuel : ∀ (n fuel x i : Nat), x < 2 ^ n → n < fuel →
    bit_index_loop fuel x i = bit_index_loop (n + 1) x i
  | 0, fuel + 1, x, i, hx, _ => by
    have h0 : x = 0 := by simpa using hx
    subst h0
    simp [bit_index_loop]
  | n + 1, fuel + 1, x, i, hx, hf => by
    have hx2 : (x >>> 1) % 256 < 2 ^ n := by
      have h1 : x >>> 1 < 2 ^ n := by
        rw [Nat.shiftRight_eq_div_pow, pow_one]
        rw [pow_succ] at hx
        omega
      exact lt_of_le_of_lt (Nat.mod_le _ _) h1
    have ih := bit_index_loop_fuel n fuel ((x >>> 1) % 256) (i + 1) hx2 (by omega)
    rw [bit_index_loop, bit_index_loop]
    simp only [ih]

set_option maxRecDepth 100000 in
/-- The native count and the commented-out loop on every nonzero byte. -/
theorem bit_index_byte_table :
    ∀ x, x < 256 → x ≠ 0 →
      bit_index x = some (ctzAux 16 x) ∧ ctzAux 16 x ≤ bit_index_commented x ∧
      (ctzAux 16 x = bit_index_commented x ↔ ∃ k, k < 8 ∧ x = 2 ^ k) := by
  decide

/-! ## Claims -/

/-- C1. Watchdog safety.  After `turnOnPump()` ran in a state whose clock
reads `t0 = millis()`, a `handlePump()` executed when `millis()` reads
`t0 + 30000` (as a 32-bit value) leaves `pumpRunning` false with the drive pin
and the release pin both LOW, and a `handlePump()` executed when `millis()`
reads `t0 + 29999` changes nothing: the pump is still running, drive HIGH,
release LOW, `pumpStartTime = t0`. -/
theorem watchdog_fires_at_timeout (s : State) (c c' : Nat)
    (hc : c % 2 ^ 32 = (millis s + 30000) % 2 ^ 32)
    (hc' : c' % 2 ^ 32 = (millis s + 29999) % 2 ^ 32) :
    ((handlePump (atClock c (turnOnPump s))).pumpRunning = false ∧
      (handlePump (atClock c (turnOnPump s))).pump_level = LOW ∧
      (handlePump (atClock c (turnOnPump s))).release_level = LOW) ∧
    (handlePump (atClock c' (turnOnPump s)) = atClock c' (turnOnPump s) ∧
      (handlePump (atClock c' (turnOnPump s))).pumpRunning = true ∧
      (handlePump (atClock c' (turnOnPump s))).pump_level = HIGH ∧
      (handlePump (atClock c' (turnOnPump s))).release_level = LOW ∧
      (handlePump (atClock c' (turnOnPump s))).pumpStartTime = millis s) := by
  have e1 : usub32 (c % 4294967296) (s.clock % 4294967296) = 30000 := by
    simpa using usub32_elapsed s.clock 30000 c (by simpa [millis] using hc) (by norm_num)
  have e2 : usub32 (c' % 4294967296) (s.clock % 4294967296) = 29999 := by
    simpa using usub32_elapsed s.clock 29999 c' (by simpa [millis] using hc') (by norm_num)
  have r1 : handlePump (atClock c (turnOnPump s)) = shutOffPump (atClock c (turnOnPump s)) := by
    simp [handlePump, atClock, turnOnPump, millis, digitalWrite, emit, serialPrintln,
      pump_pin, release_pump_pin, pumpTimeout, e1]
  have r2 : handlePump (atClock c' (turnOnPump s)) = atClock c' (turnOnPump s) := by
    simp [handlePump, atClock, turnOnPump, millis, digitalWrite, emit, serialPrintln,
      pump_pin, release_pump_pin, pumpTimeout, e2]
  refine ⟨?_, ?_⟩
  · rw [r1]
    simp [shutOffPump, digitalWrite, emit, serialPrintln, pump_pin, release_pump_pin]
  · rw [r2]
    simp [atClock, turnOnPump, millis, digitalWrite, emit, serialPrintln,
      pump_pin, release_pump_pin]

/-- Witness for C1: the pump is started one millisecond before the 32-bit
counter rolls over. -/
theorem watchdog_fires_at_timeout_witness :
    ((handlePump (atClock 4294997295 (turnOnPump (atClock 4294967295 boot)))).pumpRunning = false ∧
      (handlePump (atClock 4294997295 (turnOnPump (atClock 4294967295 boot)))).pump_level = LOW ∧
      (handlePump (atClock 4294997295 (turnOnPump (atClock 4294967295 boot)))).release_level = LOW) ∧
    (handlePump (atClock 4294997294 (turnOnPump (atClock 4294967295 boot)))
        = atClock 4294997294 (turnOnPump (atClock 4294967295 boot)) ∧
      (handlePump (atClock 4294997294 (turnOnPump (atClock 4294967295 boot)))).pumpRunning = true ∧
      (handlePump (atClock 4294997294 (turnOnPump (atClock 4294967295 boot)))).pump_level = HIGH ∧
      (handlePump (atClock 4294997294 (turnOnPump (atClock 4294967295 boot)))).release_level = LOW ∧
      (handlePump (atClock 4294997294 (turnOnPump (atClock 4294967295 boot)))).pumpStartTime
        = millis (atClock 4294967295 boot)) :=
  watchdog_fires_at_timeout (atClock 4294967295 boot) 4294997295 4294997294
    (by decide) (by decide)

/-- C2. Edge classification in `handleDiscDetection`.  For every stored frame
`last_data` and every raw byte, with `data` the normalised frame, the call
returns and: it prints `DROP` exactly when `last_data = 0` and `data ≠ 0`, and
then what it emits after the scan is `data`, `DROP ` and a slot that is the
index of the lowest set bit of `data`; it reports the falling edge (the line
`LOG light renewed :)`) exactly when `last_data ≠ 0` and `data = 0`; in every
other case it emits nothing but the scan itself. -/
theorem edge_classification (raw : Nat) (s : State) :
    ∃ t, handleDiscDetection raw s = some t ∧
      (Event.print "DROP " ∈ emitted s t ↔
        s.last_data = 0 ∧ normalise (raw % 256) ≠ 0) ∧
      (s.last_data = 0 ∧ normalise (raw % 256) ≠ 0 →
        ∃ slot, emitted s t = scanActions ++
            [.printlnNum (normalise (raw % 256)), .print "DROP ", .printlnNum slot] ∧
          (normalise (raw % 256)).testBit slot = true ∧
          ∀ j, j < slot → (normalise (raw % 256)).testBit j = false) ∧
      (Event.println "LOG light renewed :)" ∈ emitted s t ↔
        s.last_data ≠ 0 ∧ normalise (raw % 256) = 0) ∧
      (¬ (s.last_data = 0 ∧ normalise (raw % 256) ≠ 0) →
        ¬ (s.last_data ≠ 0 ∧ normalise (raw % 256) = 0) →
        emitted s t = scanActions) := by
  have hlt := normalise_lt (raw % 256)
  by_cases hd : normalise (raw % 256) = 0
  · by_cases hl : s.last_data = 0
    · refine ⟨{ spiTransfer 0 (update165 s) with last_data := normalise (raw % 256) }, ?_, ?_⟩
      · simp [handleDiscDetection, scan_eq, hd, hl]
      · simp [emitted, scan_eq, hd, hl, scanActions]
    · refine ⟨{ pump_on_off (serialPrintln "faking picking up a pick then puttine it down"
          (serialPrintln "LOG light renewed :)" (spiTransfer 0 (update165 s)))) with
          last_data := normalise (raw % 256) }, ?_, ?_⟩
      · simp [handleDiscDetection, scan_eq, hd, hl]
      · simp [emitted, scan_eq, pump_on_off_eq, serialPrintln, emit, hd, hl, scanActions,
          pumpCycleActions]
  · by_cases hl : s.last_data = 0
    · obtain ⟨hset, hclr⟩ := ctzAux_spec 16 (normalise (raw % 256)) (by omega) (by omega)
      refine ⟨{ serialPrintlnNum (ctzAux 16 (normalise (raw % 256)))
          (serialPrint "DROP " (serialPrintlnNum (normalise (raw % 256))
            (spiTransfer 0 (update165 s)))) with last_data := normalise (raw % 256) }, ?_, ?_⟩
      · simp [handleDiscDetection, scan_eq, builtin_ctz, hd, hl]
      · refine ⟨?_, ?_, ?_, ?_⟩
        · simp [emitted, scan_eq, serialPrintlnNum, serialPrint, emit, hd, hl]
        · intro _
          exact ⟨ctzAux 16 (normalise (raw % 256)),
            by simp [emitted, scan_eq, serialPrintlnNum, serialPrint, emit], hset, hclr⟩
        · simp [emitted, scan_eq, serialPrintlnNum, serialPrint, emit, hd, hl, scanActions]
        · simp [hd, hl]
    · refine ⟨{ spiTransfer 0 (update165 s) with last_data := normalise (raw % 256) }, ?_, ?_⟩
      · simp [handleDiscDetection, scan_eq, hd, hl]
      · simp [emitted, scan_eq, hd, hl, scanActions]

/-- Witness for C2: from the initial stored frame 0 the raw byte `0x93`
(frame `0x6C`, bits 2, 3, 5, 6) is a rising edge and a slot is reported; the
raw byte `0xFF` (frame 0) is no edge and only the scan is emitted. -/
theorem edge_classification_witness :
    (∃ t, handleDiscDetection 0x93 boot = some t ∧
      ∃ slot, emitted boot t = scanActions ++
          [.printlnNum (normalise (0x93 % 256)), .print "DROP ", .printlnNum slot] ∧
        (normalise (0x93 % 256)).testBit slot = true ∧
        ∀ j, j < slot → (normalise (0x93 % 256)).testBit j = false) ∧
    (∃ t, handleDiscDetection 0xFF boot = some t ∧ emitted boot t = scanActions) := by
  constructor
  · obtain ⟨t, ht, -, hr, -, -⟩ := edge_classification 0x93 boot
    exact ⟨t, ht, hr ⟨rfl, by decide⟩⟩
  · obtain ⟨t, ht, -, -, -, hn⟩ := edge_classification 0xFF boot
    exact ⟨t, ht, hn (by decide) (by decide)⟩

/-- C3. `pump_on_off()` from any state, in particular from Idle, performs
exactly the actuator/wait sequence drive HIGH, release LOW, wait 2000 ms,
drive LOW, release HIGH, wait 2000 ms, drive LOW, release LOW; the levels in
force during the two waits are (HIGH, LOW) and (LOW, HIGH); it ends with
`pumpRunning` false and both pins LOW. -/
theorem pump_on_off_sequence (s : State) :
    actuatorSeq (emitted s (pump_on_off s)) =
      [.pinWrite pump_pin HIGH, .pinWrite release_pump_pin LOW, .delay 2000,
       .pinWrite pump_pin LOW, .pinWrite release_pump_pin HIGH, .delay 2000,
       .pinWrite pump_pin LOW, .pinWrite release_pump_pin LOW] ∧
    heldLevels (s.pump_level, s.release_level) (emitted s (pump_on_off s)) =
      [(HIGH, LOW, 2000), (LOW, HIGH, 2000)] ∧
    (pump_on_off s).pumpRunning = false ∧
    (pump_on_off s).pump_level = LOW ∧
    (pump_on_off s).release_level = LOW := by
  refine ⟨?_, ?_, ?_, ?_, ?_⟩
  · simp [emitted, pump_on_off_eq, pumpCycleActions, actuatorSeq, isActuation,
      pump_pin, release_pump_pin]
  · simp [emitted, pump_on_off_eq, pumpCycleActions, heldLevels, pumpPinsAfter,
      pump_pin, release_pump_pin]
  · simp [pump_on_off_eq]
  · simp [pump_on_off_eq]
  · simp [pump_on_off_eq]

/-- C4. `handle_cmd` maps each recognised token onto the corresponding
operation, from every state: `PUMP ON` is `turnOnPump()` (and so yields
`pumpRunning` true, drive HIGH, release LOW), `PUMP OFF` is `shutOffPump()`,
`PUMP RELEASE` is `releasePump()`, `RESET` is `turn_off_solenoids()`. -/
theorem handle_cmd_dispatch (s : State) :
    handle_cmd "PUMP ON" s = turnOnPump s ∧
    ((handle_cmd "PUMP ON" s).pumpRunning = true ∧
      (handle_cmd "PUMP ON" s).pump_level = HIGH ∧
      (handle_cmd "PUMP ON" s).release_level = LOW) ∧
    handle_cmd "PUMP OFF" s = shutOffPump s ∧
    handle_cmd "PUMP RELEASE" s = releasePump s ∧
    handle_cmd "RESET" s = turn_off_solenoids s := by
  have h1 : handle_cmd "PUMP ON" s = turnOnPump s := by
    simp [handle_cmd]
  refine ⟨h1, ?_, ?_, ?_, ?_⟩
  · rw [h1]
    simp [turnOnPump_eq]
  · simp [handle_cmd]
  · simp [handle_cmd]
  · simp [handle_cmd]

/-- C5. A string that is not exactly `RESET`, `PUMP ON`, `PUMP OFF` or
`PUMP RELEASE` is a no-op of `handle_cmd`: the whole state, and with it
`pumpRunning`, `pumpStartTime`, both pump pins and the trace (no shift-register
write, no serial output), is unchanged. -/
theorem handle_cmd_unrecognised (cmd : String) (s : State)
    (h1 : cmd ≠ "RESET") (h2 : cmd ≠ "PUMP ON") (h3 : cmd ≠ "PUMP OFF")
    (h4 : cmd ≠ "PUMP RELEASE") :
    handle_cmd cmd s = s ∧ emitted s (handle_cmd cmd s) = [] := by
  have h : handle_cmd cmd s = s := by
    simp [handle_cmd, h1, h2, h3, h4]
  rw [h]
  simp [emitted]

/-- Witness for C5: the lower-case token and the token with a trailing blank
are not recognised. -/
theorem handle_cmd_unrecognised_witness :
    (handle_cmd "pump on" (turnOnPump boot) = turnOnPump boot ∧
      emitted (turnOnPump boot) (handle_cmd "pump on" (turnOnPump boot)) = []) ∧
    (handle_cmd "PUMP ON " boot = boot ∧
      emitted boot (handle_cmd "PUMP ON " boot) = []) :=
  ⟨handle_cmd_unrecognised "pump on" (turnOnPump boot)
      (by decide) (by decide) (by decide) (by decide),
    handle_cmd_unrecognised "PUMP ON " boot
      (by decide) (by decide) (by decide) (by decide)⟩

/-- C6. `shutOffPump()` is total and idempotent: from any state it yields
`pumpRunning` false with both pins LOW, a second call leaves variables, pin
levels and clock as the first call left them, and a call in a state that is
already Idle (`pumpRunning` false, both pins LOW) changes none of them. -/
theorem shutOffPump_idempotent (s : State) :
    (shutOffPump s).pumpRunning = false ∧
    (shutOffPump s).pump_level = LOW ∧
    (shutOffPump s).release_level = LOW ∧
    eraseTrace (shutOffPump (shutOffPump s)) = eraseTrace (shutOffPump s) ∧
    (s.pumpRunning = false → s.pump_level = LOW → s.release_level = LOW →
      eraseTrace (shutOffPump s) = eraseTrace s) := by
  refine ⟨?_, ?_, ?_, ?_, ?_⟩
  · simp [shutOffPump_eq]
  · simp [shutOffPump_eq]
  · simp [shutOffPump_eq]
  · simp [shutOffPump_eq, eraseTrace]
  · intro hr hp hl
    cases s
    simp_all [shutOffPump_eq, eraseTrace]

/-- Witness for C6: the state left by `setup_sensors()` is Idle. -/
theorem shutOffPump_idempotent_witness :
    eraseTrace (shutOffPump (setup_sensors boot)) = eraseTrace (setup_sensors boot) :=
  (shutOffPump_idempotent (setup_sensors boot)).2.2.2.2 (by decide) (by decide) (by decide)

/-- C7. `turn_off_solenoids()` performs exactly eight shift-register writes:
for `i = 0..6` in increasing order the log line, the write of the mask
`1 << i` and a 2000 ms wait, then the write of the all-zero mask.  The bytes
shifted out are 1, 2, 4, 8, 16, 32, 64, 0, and the loop leaves through its
condition `i < 7` (more fuel changes nothing). -/
theorem turn_off_solenoids_sweep (s : State) :
    emitted s (turn_off_solenoids s) =
      (List.range 7).flatMap (fun i =>
        Event.println ("LOG turn off solenoid " ++ toString i) ::
          (srWriteActions (1 <<< i) ++ [Event.delay 2000]))
      ++ srWriteActions 0 ∧
    spiBytes (emitted s (turn_off_solenoids s)) = [1, 2, 4, 8, 16, 32, 64, 0] ∧
    (spiBytes (emitted s (turn_off_solenoids s))).length = 8 ∧
    (∀ fuel, turn_off_solenoids_loop (8 + fuel) 0 s = turn_off_solenoids_loop 8 0 s) := by
  have h := turn_off_solenoids_eq s
  refine ⟨?_, ?_, ?_, ?_⟩
  · rw [h]; simp [emitted]
  · rw [h]; simp [emitted, List.range, List.range.loop, List.flatMap, srWriteActions, spiBytes]
  · rw [h]; simp [emitted, List.range, List.range.loop, List.flatMap, srWriteActions, spiBytes]
  · intro fuel
    rw [Nat.add_comm 8 fuel]
    simp [turn_off_solenoids_loop]

/-- C8. Sensor normalisation.  The frame `handleDiscDetection` works on and
stores is `(~raw) & 0x7F` of the raw byte, that is `(255 - raw) mod 128` for
`raw` on 8 bits; it is below 128, its bit `i` for `i` in 0..6 is set exactly
when bit `i` of the raw byte is clear, and two raw bytes that agree on bits
0..6 give the same frame and the same result of the call. -/
theorem sensor_normalisation (raw : Nat) (s : State) :
    (∃ t, handleDiscDetection raw s = some t ∧ t.last_data = normalise (raw % 256)) ∧
    normalise (raw % 256) = (255 - raw % 256) % 128 ∧
    normalise (raw % 256) < 128 ∧
    (normalise (raw % 256)).testBit 7 = false ∧
    (∀ i, i < 7 → ((normalise (raw % 256)).testBit i = true ↔ raw.testBit i = false)) ∧
    (∀ raw', raw' % 128 = raw % 128 →
      normalise (raw' % 256) = normalise (raw % 256) ∧
      handleDiscDetection raw' s = handleDiscDetection raw s) := by
  have hlt := normalise_lt (raw % 256)
  refine ⟨?_, normalise_arith raw, hlt, ?_, ?_, ?_⟩
  · exact handleDiscDetection_stores raw s
  · exact Nat.testBit_eq_false_of_lt (by omega)
  · intro i hi
    have hb := (normalise_byte_table (raw % 256) (Nat.mod_lt _ (by decide))).2 i hi
    have hm : (raw % 256).testBit i = raw.testBit i := by
      have := Nat.testBit_mod_two_pow raw 8 i
      simpa [show i < 8 by omega] using this
    rw [hb, hm]
    cases raw.testBit i <;> simp
  · intro raw' h
    have hn : normalise (raw' % 256) = normalise (raw % 256) := by
      rw [normalise_arith, normalise_arith]
      omega
    exact ⟨hn, handleDiscDetection_congr raw' raw s hn⟩

/-- Witness for C8: the raw bytes `0xFB` and `0x7B` differ only in bit 7; bit 2
of the raw byte is clear and bit 2 of the frame is set. -/
theorem sensor_normalisation_witness :
    (normalise (0x7B % 256) = normalise (0xFB % 256) ∧
      handleDiscDetection 0x7B boot = handleDiscDetection 0xFB boot) ∧
    ((normalise (0xFB % 256)).testBit 2 = true ↔ (0xFB).testBit 2 = false) :=
  ⟨(sensor_normalisation 0xFB boot).2.2.2.2.2 0x7B (by decide),
    (sensor_normalisation 0xFB boot).2.2.2.2.1 2 (by decide)⟩

/-- C9. Pump flag and actuator outputs agree.  In every state reached from
the state left by `setup_sensors()` by a finite sequence of `turnOnPump`,
`releasePump`, `shutOffPump`, `handlePump`, `pump_on_off` and `handle_cmd`
calls at arbitrary clock values, `pumpRunning` is true exactly when the drive
pin is HIGH; and in the Idle states, that is the initial state, the state
produced by `shutOffPump()` and the state produced by a `handlePump()` that
acts, `pumpRunning` is false and neither pump pin is HIGH. -/
theorem pump_flag_agrees_with_drive (ops : List Op) :
    ((runOps ops (setup_sensors boot)).pumpRunning = true ↔
      (runOps ops (setup_sensors boot)).pump_level = HIGH) ∧
    ((setup_sensors boot).pumpRunning = false ∧
      (setup_sensors boot).pump_level = LOW ∧
      (setup_sensors boot).release_level = LOW) ∧
    ((shutOffPump (runOps ops (setup_sensors boot))).pumpRunning = false ∧
      (shutOffPump (runOps ops (setup_sensors boot))).pump_level = LOW ∧
      (shutOffPump (runOps ops (setup_sensors boot))).release_level = LOW) ∧
    (handlePump (runOps ops (setup_sensors boot)) = runOps ops (setup_sensors boot) ∨
      ((handlePump (runOps ops (setup_sensors boot))).pumpRunning = false ∧
        (handlePump (runOps ops (setup_sensors boot))).pump_level = LOW ∧
        (handlePump (runOps ops (setup_sensors boot))).release_level = LOW)) := by
  have hoff : ∀ s : State, (shutOffPump s).pumpRunning = false ∧
      (shutOffPump s).pump_level = LOW ∧ (shutOffPump s).release_level = LOW := by
    intro s; simp [shutOffPump_eq]
  refine ⟨(pumpInv_runOps ops _ pumpInv_setup).1, ?_, hoff _, ?_⟩
  · simp [setup_sensors, boot, pinMode, digitalWrite, emit, load_pin, latch_pin,
      btn_pin, pump_pin, release_pump_pin]
  · rcases handlePump_cases (runOps ops (setup_sensors boot)) with e | e
    · exact Or.inl e
    · right; rw [e]; exact hoff _

/-- C10, counterexample.  From the state left by `setup_sensors()`, the calls
`releasePump()` then `turnOnPump()` pass through a state with the drive pin
and the release pin both HIGH: it is the state right after the first
`digitalWrite` of `turnOnPump()`. -/
theorem turnOnPump_while_releasing_both_high :
    pumpPinHistory (LOW, LOW)
        (runOps [.releasePump, .turnOnPump] (setup_sensors boot)).trace =
      [(LOW, LOW), (LOW, LOW), (LOW, LOW), (LOW, HIGH), (HIGH, HIGH), (HIGH, LOW)] ∧
    (HIGH, HIGH) ∈ pumpPinHistory (LOW, LOW)
        (runOps [.releasePump, .turnOnPump] (setup_sensors boot)).trace := by
  decide

/-- C10, amended.  In every state reached from the state left by
`setup_sensors()` by a finite sequence of calls, the drive pin and the release
pin are not both HIGH; and during the next call no single write to a pump pin
leaves both HIGH, provided the release pin is LOW when the call starts or the
call is none of `turnOnPump()`, `pump_on_off()`, `handle_cmd("PUMP ON")`. -/
theorem pump_pins_exclusive (ops : List Op) (op : Op) :
    ¬ ((runOps ops (setup_sensors boot)).pump_level = HIGH ∧
        (runOps ops (setup_sensors boot)).release_level = HIGH) ∧
    ((runOps ops (setup_sensors boot)).release_level = LOW ∨
        (op ≠ .turnOnPump ∧ op ≠ .pump_on_off ∧ op ≠ .handle_cmd "PUMP ON") →
      (HIGH, HIGH) ∉ pumpPinHistory
        ((runOps ops (setup_sensors boot)).pump_level,
          (runOps ops (setup_sensors boot)).release_level)
        (emitted (runOps ops (setup_sensors boot))
          (op.run (runOps ops (setup_sensors boot))))) := by
  have hinv := pumpInv_runOps ops _ pumpInv_setup
  generalize runOps ops (setup_sensors boot) = s at hinv ⊢
  refine ⟨hinv.2, ?_⟩
  have hSame : (HIGH, HIGH) ∉ pumpPinHistory (s.pump_level, s.release_level) (emitted s s) := by
    simp [emitted, pumpPinHistory]
  have hOff : (HIGH, HIGH) ∉ pumpPinHistory (s.pump_level, s.release_level)
      (emitted s (shutOffPump s)) := by
    simp [emitted, shutOffPump_eq, pumpPinHistory, pumpPinsAfter, pump_pin, release_pump_pin]
  have hRel : (HIGH, HIGH) ∉ pumpPinHistory (s.pump_level, s.release_level)
      (emitted s (releasePump s)) := by
    simp [emitted, releasePump_eq, pumpPinHistory, pumpPinsAfter, pump_pin, release_pump_pin]
  have hOn : s.release_level = LOW → (HIGH, HIGH) ∉
      pumpPinHistory (s.pump_level, s.release_level) (emitted s (turnOnPump s)) := by
    intro hl
    simp [emitted, turnOnPump_eq, pumpPinHistory, pumpPinsAfter, pump_pin, release_pump_pin, hl]
  have hCycle : s.release_level = LOW → (HIGH, HIGH) ∉
      pumpPinHistory (s.pump_level, s.release_level) (emitted s (pump_on_off s)) := by
    intro hl
    simp [emitted, pump_on_off_eq, pumpCycleActions, pumpPinHistory, pumpPinsAfter, pump_pin,
      release_pump_pin, hl]
  have hSweep : (HIGH, HIGH) ∉ pumpPinHistory (s.pump_level, s.release_level)
      (emitted s (turn_off_solenoids s)) := by
    simp [emitted, turn_off_solenoids_eq, List.range, List.range.loop, List.flatMap,
      srWriteActions, pumpPinHistory, latch_pin, pump_pin, release_pump_pin]
  intro h
  cases op with
  | turnOnPump =>
    rcases h with hl | ⟨hne, -, -⟩
    · exact hOn hl
    · exact absurd rfl hne
  | releasePump => exact hRel
  | shutOffPump => exact hOff
  | handlePump =>
    rcases handlePump_cases s with e | e
    · simpa [Op.run, e] using hSame
    · simpa [Op.run, e] using hOff
  | pump_on_off =>
    rcases h with hl | ⟨-, hne, -⟩
    · exact hCycle hl
    · exact absurd rfl hne
  | handle_cmd cmd =>
    by_cases hr : cmd = "RESET"
    · subst hr
      have e : handle_cmd "RESET" s = turn_off_solenoids s := by simp [handle_cmd]
      simpa [Op.run, e] using hSweep
    · by_cases hc : cmd = "PUMP ON"
      · subst hc
        have e : handle_cmd "PUMP ON" s = turnOnPump s := by simp [handle_cmd]
        rcases h with hl | ⟨-, -, hne⟩
        · simpa [Op.run, e] using hOn hl
        · exact absurd rfl hne
      · by_cases ho : cmd = "PUMP OFF"
        · subst ho
          have e : handle_cmd "PUMP OFF" s = shutOffPump s := by simp [handle_cmd]
          simpa [Op.run, e] using hOff
        · by_cases hp : cmd = "PUMP RELEASE"
          · subst hp
            have e : handle_cmd "PUMP RELEASE" s = releasePump s := by simp [handle_cmd]
            simpa [Op.run, e] using hRel
          · have e : handle_cmd cmd s = s := by simp [handle_cmd, hc, hr, ho, hp]
            simpa [Op.run, e] using hSame
  | tick t =>
    simp [Op.run, emitted, atClock, pumpPinHistory]

/-- Witness for C10, amended: a `releasePump()` called while the pump runs,
and a `turnOnPump()` called from the state left by `setup_sensors()` where the
release pin is LOW. -/
theorem pump_pins_exclusive_witness :
    (HIGH, HIGH) ∉ pumpPinHistory
        ((runOps [.turnOnPump] (setup_sensors boot)).pump_level,
          (runOps [.turnOnPump] (setup_sensors boot)).release_level)
        (emitted (runOps [.turnOnPump] (setup_sensors boot))
          (Op.releasePump.run (runOps [.turnOnPump] (setup_sensors boot)))) ∧
    (HIGH, HIGH) ∉ pumpPinHistory
        ((runOps [] (setup_sensors boot)).pump_level,
          (runOps [] (setup_sensors boot)).release_level)
        (emitted (runOps [] (setup_sensors boot))
          (Op.turnOnPump.run (runOps [] (setup_sensors boot)))) :=
  ⟨(pump_pins_exclusive [.turnOnPump] .releasePump).2 (Or.inr (by decide)),
    (pump_pins_exclusive [] .turnOnPump).2 (Or.inl (by decide))⟩

/-- C11. Button debounce in `handleButtonPress`.  When the sampled level
differs from the stored one the stored level is updated; a new level HIGH sets
`pressStart` to `millis()` and emits nothing; a new level LOW emits `START`
exactly when `millis() - pressStart` (unsigned, 32 bits) is at least
`btn_ms_time = 1`, and nothing otherwise; when the level equals the stored one
the state, trace included, is unchanged. -/
theorem button_debounce (pressed : Bool) (s : State) :
    (pressed ≠ s.prevPressed → (handleButtonPress pressed s).prevPressed = pressed) ∧
    (pressed ≠ s.prevPressed → pressed = HIGH →
      handleButtonPress pressed s =
        { s with prevPressed := HIGH, pressStart := millis s } ∧
      emitted s (handleButtonPress pressed s) = []) ∧
    (pressed ≠ s.prevPressed → pressed = LOW →
      (1 ≤ usub32 (millis s) s.pressStart →
        handleButtonPress pressed s =
          { s with prevPressed := LOW, trace := s.trace ++ [.println "START"] }) ∧
      (usub32 (millis s) s.pressStart < 1 →
        handleButtonPress pressed s = { s with prevPressed := LOW }) ∧
      (Event.println "START" ∈ emitted s (handleButtonPress pressed s) ↔
        1 ≤ usub32 (millis s) s.pressStart) ∧
      (handleButtonPress pressed s).pressStart = s.pressStart) ∧
    (pressed = s.prevPressed → handleButtonPress pressed s = s) := by
  refine ⟨?_, ?_, ?_, ?_⟩
  · intro h
    simp only [handleButtonPress, if_pos h]
    split
    · rfl
    · split <;> rfl
  · intro h hp
    subst hp
    have hprev : s.prevPressed = false := by
      cases hpp : s.prevPressed
      · rfl
      · exact absurd hpp.symm h
    simp [handleButtonPress, hprev, emitted, millis]
  · intro h hp
    subst hp
    have hprev : s.prevPressed = true := by
      cases hpp : s.prevPressed
      · exact absurd hpp.symm h
      · rfl
    by_cases hge : 1 ≤ usub32 (millis s) s.pressStart
    · have e : handleButtonPress LOW s =
          { s with prevPressed := LOW, trace := s.trace ++ [.println "START"] } := by
        have hge2 : 1 ≤ usub32 (s.clock % 4294967296) s.pressStart := by
          simpa [millis] using hge
        simp [handleButtonPress, hprev, btn_ms_time, millis, serialPrintln, emit, hge2]
      refine ⟨fun _ => e, fun hlt => absurd hge (by omega), ?_, ?_⟩
      · rw [e]; simp [emitted, hge]
      · rw [e]
    · have e : handleButtonPress LOW s = { s with prevPressed := LOW } := by
        have hge2 : ¬ 1 ≤ usub32 (s.clock % 4294967296) s.pressStart := by
          simpa [millis] using hge
        simp only [handleButtonPress, hprev, btn_ms_time, millis]
        simp [hge2]
      refine ⟨fun hle => absurd hle hge, fun _ => e, ?_, ?_⟩
      · rw [e]; simp [emitted, hge]
      · rw [e]
  · intro h
    simp [handleButtonPress, h]

/-- Witness for C11: a press at 5 ms (level HIGH, stored level LOW), and its
release at 6 ms, which emits `START`. -/
theorem button_debounce_witness :
    (handleButtonPress HIGH (atClock 5 boot) =
        { atClock 5 boot with prevPressed := HIGH, pressStart := millis (atClock 5 boot) } ∧
      emitted (atClock 5 boot) (handleButtonPress HIGH (atClock 5 boot)) = []) ∧
    handleButtonPress LOW (atClock 6 (handleButtonPress HIGH (atClock 5 boot))) =
      { atClock 6 (handleButtonPress HIGH (atClock 5 boot)) with
        prevPressed := LOW,
        trace := (atClock 6 (handleButtonPress HIGH (atClock 5 boot))).trace ++
          [.println "START"] } ∧
    handleButtonPress LOW boot = boot :=
  ⟨(button_debounce HIGH (atClock 5 boot)).2.1 (by decide) rfl,
    ((button_debounce LOW (atClock 6 (handleButtonPress HIGH (atClock 5 boot)))).2.2.1
      (by decide) rfl).1 (by decide),
    (button_debounce LOW boot).2.2.2 (by decide)⟩

/-- C12. `releasePump()` from any state yields `pumpRunning` false, drive LOW
and release HIGH, and the watchdog does not guard that state: for every clock
value and every stored `pumpStartTime`, `handlePump()` changes nothing, and
after any sequence of `handlePump()` calls and clock changes the release pin
is still HIGH. -/
theorem release_not_guarded (s : State) :
    ((releasePump s).pumpRunning = false ∧
      (releasePump s).pump_level = LOW ∧
      (releasePump s).release_level = HIGH) ∧
    (∀ c p : Nat,
      handlePump { atClock c (releasePump s) with pumpStartTime := p } =
        { atClock c (releasePump s) with pumpStartTime := p }) ∧
    (∀ ops : List Op, (∀ op ∈ ops, op.isWatchdogOrTick = true) →
      (runOps ops (releasePump s)).pumpRunning = false ∧
      (runOps ops (releasePump s)).pump_level = LOW ∧
      (runOps ops (releasePump s)).release_level = HIGH) := by
  have h : (releasePump s).pumpRunning = false ∧ (releasePump s).pump_level = LOW ∧
      (releasePump s).release_level = HIGH := by
    simp [releasePump_eq]
  refine ⟨h, ?_, ?_⟩
  · intro c p
    exact handlePump_not_running _ (by simp [atClock, releasePump_eq])
  · intro ops hops
    exact released_stays ops (releasePump s) hops h.1 h.2.1 h.2.2

/-- Witness for C12: a pump started at 0 ms and released; the watchdog runs
at 30000 ms and again a day later. -/
theorem release_not_guarded_witness :
    (runOps [.tick 30000, .handlePump, .tick 86400000, .handlePump]
        (releasePump (turnOnPump boot))).pumpRunning = false ∧
    (runOps [.tick 30000, .handlePump, .tick 86400000, .handlePump]
        (releasePump (turnOnPump boot))).pump_level = LOW ∧
    (runOps [.tick 30000, .handlePump, .tick 86400000, .handlePump]
        (releasePump (turnOnPump boot))).release_level = HIGH :=
  (release_not_guarded (turnOnPump boot)).2.2
    [.tick 30000, .handlePump, .tick 86400000, .handlePump] (by decide)

/-- C13. Re-activation restarts the timeout.  After `turnOnPump()` at any
time `t0` and again at `t1`, `pumpStartTime` is `t1` (as a 32-bit value), and
a later `handlePump()` at time `now` shuts the pump off exactly when
`now - t1 ≥ 30000`, whatever `t0` was; so with `t0 < t1` a `handlePump()` at
`t0 + 30000` leaves the pump running. -/
theorem reactivation_restarts_timeout (s : State) (t0 t1 now : Nat)
    (h1 : t1 ≤ now) (h2 : now - t1 < 2 ^ 32) :
    (turnOnPump (atClock t1 (turnOnPump (atClock t0 s)))).pumpStartTime = t1 % 2 ^ 32 ∧
    (turnOnPump (atClock t1 (turnOnPump (atClock t0 s)))).pumpRunning = true ∧
    ((handlePump (atClock now (turnOnPump (atClock t1 (turnOnPump (atClock t0 s)))))).pumpRunning
        = false ↔ 30000 ≤ now - t1) ∧
    (30000 ≤ now - t1 →
      handlePump (atClock now (turnOnPump (atClock t1 (turnOnPump (atClock t0 s))))) =
        shutOffPump (atClock now (turnOnPump (atClock t1 (turnOnPump (atClock t0 s)))))) ∧
    (now - t1 < 30000 →
      handlePump (atClock now (turnOnPump (atClock t1 (turnOnPump (atClock t0 s))))) =
        atClock now (turnOnPump (atClock t1 (turnOnPump (atClock t0 s))))) ∧
    (now = t0 + 30000 → t0 < t1 →
      (handlePump (atClock now (turnOnPump (atClock t1 (turnOnPump (atClock t0 s)))))).pumpRunning
        = true) := by
  have hel := usub32_true_elapsed t1 now h1 h2
  generalize hs2 : atClock now (turnOnPump (atClock t1 (turnOnPump (atClock t0 s)))) = s2
  have hrun : s2.pumpRunning = true := by
    rw [← hs2]; simp [atClock, turnOnPump_eq]
  have hstart : usub32 (millis s2) s2.pumpStartTime = now - t1 := by
    rw [← hs2]
    simpa [atClock, turnOnPump_eq, millis] using hel
  have hw := handlePump_running s2 hrun
  rw [hstart] at hw
  have hoff : (shutOffPump s2).pumpRunning = false := by simp [shutOffPump_eq]
  refine ⟨by simp [atClock, turnOnPump_eq], by simp [atClock, turnOnPump_eq], ?_, hw.1, hw.2, ?_⟩
  · constructor
    · intro hf
      by_contra hlt
      rw [hw.2 (by omega), hrun] at hf
      exact absurd hf (by simp)
    · intro hge
      rw [hw.1 hge]; exact hoff
  · intro hnow hlt
    rw [hw.2 (by omega)]; exact hrun

/-- Witness for C13: the pump is started at 1000 ms and again at 11000 ms;
the watchdog at 31000 ms leaves it running, the watchdog at 41000 ms shuts it
off. -/
theorem reactivation_restarts_timeout_witness :
    (handlePump (atClock 31000 (turnOnPump (atClock 11000
        (turnOnPump (atClock 1000 boot)))))).pumpRunning = true ∧
    handlePump (atClock 41000 (turnOnPump (atClock 11000 (turnOnPump (atClock 1000 boot))))) =
      shutOffPump (atClock 41000 (turnOnPump (atClock 11000
        (turnOnPump (atClock 1000 boot))))) :=
  ⟨(reactivation_restarts_timeout boot 1000 11000 31000 (by decide) (by decide)).2.2.2.2.2
      (by decide) (by decide),
    (reactivation_restarts_timeout boot 1000 11000 41000 (by decide) (by decide)).2.2.2.1
      (by decide)⟩

/-- C14. A falling edge, and only a falling edge, drives the pump from the
sensor scan.  On a call with `last_data ≠ 0` and `data = 0` the pump pin
writes and waits are exactly those of `pump_on_off()` and the call ends with
`pumpRunning` false and both pins LOW; on every other call there is no pump
pin write and no wait, and `pumpRunning`, `pumpStartTime` and both pump pin
levels are unchanged. -/
theorem falling_edge_drives_pump (raw : Nat) (s : State) :
    ∃ t, handleDiscDetection raw s = some t ∧
      (s.last_data ≠ 0 ∧ normalise (raw % 256) = 0 →
        actuatorSeq (emitted s t) =
          [.pinWrite pump_pin HIGH, .pinWrite release_pump_pin LOW, .delay 2000,
           .pinWrite pump_pin LOW, .pinWrite release_pump_pin HIGH, .delay 2000,
           .pinWrite pump_pin LOW, .pinWrite release_pump_pin LOW] ∧
        actuatorSeq (emitted s t) = actuatorSeq (emitted s (pump_on_off s)) ∧
        t.pumpRunning = false ∧ t.pump_level = LOW ∧ t.release_level = LOW) ∧
      (¬ (s.last_data ≠ 0 ∧ normalise (raw % 256) = 0) →
        actuatorSeq (emitted s t) = [] ∧
        t.pumpRunning = s.pumpRunning ∧ t.pumpStartTime = s.pumpStartTime ∧
        t.pump_level = s.pump_level ∧ t.release_level = s.release_level) := by
  rcases tick_cases raw s with ⟨hd, hl, e⟩ | ⟨hd, hl, e⟩ | ⟨h1, h2, e⟩
  · refine ⟨_, e, ?_, ?_⟩
    · intro h; exact absurd h.2 hd
    · intro _
      simp [emitted, actuatorSeq, isActuation, scanActions, load_pin, pump_pin,
        release_pump_pin]
  · refine ⟨_, e, ?_, ?_⟩
    · intro _
      simp [emitted, actuatorSeq, isActuation, scanActions, pumpCycleActions, pump_on_off_eq,
        load_pin, pump_pin, release_pump_pin]
    · intro h; exact absurd ⟨hl, hd⟩ h
  · refine ⟨_, e, ?_, ?_⟩
    · intro h; exact absurd ⟨h.2, h.1⟩ h2
    · intro _
      simp [emitted, actuatorSeq, isActuation, scanActions, load_pin, pump_pin,
        release_pump_pin]

/-- Witness for C14: with stored frame 4 the raw byte `0xFF` (frame 0) is a
falling edge; with stored frame 0 the raw byte `0xFB` (frame 4) is not. -/
theorem falling_edge_drives_pump_witness :
    (∃ t, handleDiscDetection 0xFF { boot with last_data := 4 } = some t ∧
      actuatorSeq (emitted { boot with last_data := 4 } t) =
        [.pinWrite pump_pin HIGH, .pinWrite release_pump_pin LOW, .delay 2000,
         .pinWrite pump_pin LOW, .pinWrite release_pump_pin HIGH, .delay 2000,
         .pinWrite pump_pin LOW, .pinWrite release_pump_pin LOW]) ∧
    (∃ t, handleDiscDetection 0xFB boot = some t ∧ actuatorSeq (emitted boot t) = [] ∧
      t.pumpRunning = boot.pumpRunning) := by
  constructor
  · obtain ⟨t, ht, hf, -⟩ := falling_edge_drives_pump 0xFF { boot with last_data := 4 }
    exact ⟨t, ht, (hf ⟨by decide, by decide⟩).1⟩
  · obtain ⟨t, ht, -, hn⟩ := falling_edge_drives_pump 0xFB boot
    have h := hn (by decide)
    exact ⟨t, ht, h.1, h.2.1⟩

/-- C15. After every call of `handleDiscDetection`, whatever the outcome, the
stored frame `last_data` is the normalised frame of that call, and the stored
frame is 0 initially.  So what a call emits depends only on its raw byte and
the stored frame: two states with the same stored frame emit the same, and
after a call with raw byte `prev` from any two states, the next call with raw
byte `raw` emits the same from both. -/
theorem last_frame_replaced (prev raw : Nat) (s s' : State) :
    boot.last_data = 0 ∧ (setup_sensors boot).last_data = 0 ∧
    (∃ t, handleDiscDetection raw s = some t ∧ t.last_data = normalise (raw % 256) ∧
      (s'.last_data = s.last_data →
        ∃ t', handleDiscDetection raw s' = some t' ∧ emitted s' t' = emitted s t)) ∧
    (∃ u u' t t', handleDiscDetection prev s = some u ∧ handleDiscDetection prev s' = some u' ∧
      handleDiscDetection raw u = some t ∧ handleDiscDetection raw u' = some t' ∧
      emitted u' t' = emitted u t) := by
  have key : ∀ (r : Nat) (a b : State), a.last_data = b.last_data →
      ∃ ta tb, handleDiscDetection r a = some ta ∧ handleDiscDetection r b = some tb ∧
        ta.last_data = normalise (r % 256) ∧ tb.last_data = normalise (r % 256) ∧
        emitted b tb = emitted a ta := by
    intro r a b hab
    rcases tick_cases r a with ⟨hd, hl, e⟩ | ⟨hd, hl, e⟩ | ⟨h1, h2, e⟩ <;>
      rcases tick_cases r b with ⟨hd', hl', e'⟩ | ⟨hd', hl', e'⟩ | ⟨h1', h2', e'⟩
    · exact ⟨_, _, e, e', rfl, rfl, by simp [emitted]⟩
    · exact absurd hd' hd
    · exact absurd ⟨hd, hab ▸ hl⟩ h1'
    · exact absurd hd hd'
    · exact ⟨_, _, e, e', rfl, rfl, by simp [emitted]⟩
    · exact absurd ⟨hd, hab ▸ hl⟩ h2'
    · exact absurd ⟨hd', hab ▸ hl'⟩ h1
    · exact absurd ⟨hd', hab ▸ hl'⟩ h2
    · exact ⟨_, _, e, e', rfl, rfl, by simp [emitted]⟩
  refine ⟨rfl, by decide, ?_, ?_⟩
  · obtain ⟨t, -, ht, -, hlast, -, -⟩ := key raw s s rfl
    refine ⟨t, ht, hlast, ?_⟩
    intro hs
    obtain ⟨ta, tb, ha, hb, -, -, hem⟩ := key raw s s' hs.symm
    rw [ht] at ha
    cases ha
    exact ⟨tb, hb, hem⟩
  · obtain ⟨u, -, hu, -, hul, -, -⟩ := key prev s s rfl
    obtain ⟨u', -, hu', -, hul', -, -⟩ := key prev s' s' rfl
    obtain ⟨t, t', ht, ht', -, -, hem⟩ := key raw u u' (by rw [hul, hul'])
    exact ⟨u, u', t, t', hu, hu', ht, ht', hem⟩

/-- Witness for C15: two states with different clocks and pump states but the
same stored frame 0 emit the same on raw byte `0xFB`. -/
theorem last_frame_replaced_witness :
    ∃ t', handleDiscDetection 0xFB (turnOnPump (atClock 77 boot)) = some t' ∧
      ∃ t, handleDiscDetection 0xFB boot = some t ∧
        emitted (turnOnPump (atClock 77 boot)) t' = emitted boot t := by
  obtain ⟨-, -, ⟨t, ht, -, h⟩, -⟩ := last_frame_replaced 0 0xFB boot (turnOnPump (atClock 77 boot))
  obtain ⟨t', ht', hem⟩ := h (by decide)
  exact ⟨t', ht', t, ht, hem⟩

/-- C16. The count-trailing-zeros primitive is never applied to zero in
`handleDiscDetection`: every call returns (the undefined case is never
reached), `__builtin_ctz(data)` is evaluated on a rising edge only, where
`data ≠ 0`, and there it is defined and the reported slot lies in 0..6, with
bit `slot` of `data` set and all lower bits clear. -/
theorem ctz_guarded (raw : Nat) (s : State) :
    handleDiscDetection raw s ≠ none ∧
    (normalise (raw % 256) ≠ 0 ∧ s.last_data = 0 →
      ∃ slot t, builtin_ctz (normalise (raw % 256)) = some slot ∧
        handleDiscDetection raw s = some t ∧
        emitted s t = scanActions ++
          [.printlnNum (normalise (raw % 256)), .print "DROP ", .printlnNum slot] ∧
        slot ≤ 6 ∧
        (normalise (raw % 256)).testBit slot = true ∧
        ∀ j, j < slot → (normalise (raw % 256)).testBit j = false) ∧
    (¬ (normalise (raw % 256) ≠ 0 ∧ s.last_data = 0) →
      ∃ t, handleDiscDetection raw s = some t ∧
        ∀ n, Event.printlnNum n ∉ emitted s t) := by
  have hlt := normalise_lt (raw % 256)
  rcases tick_cases raw s with ⟨hd, hl, e⟩ | ⟨hd, hl, e⟩ | ⟨h1, h2, e⟩
  · refine ⟨by rw [e]; simp, ?_, fun h => absurd ⟨hd, hl⟩ h⟩
    intro _
    obtain ⟨hset, hclr⟩ := ctzAux_spec 16 (normalise (raw % 256)) (by omega) (by omega)
    refine ⟨ctzAux 16 (normalise (raw % 256)), _, by simp [builtin_ctz, hd], e,
      by simp [emitted], ?_, hset, hclr⟩
    by_contra hgt
    have hpow : 2 ^ 7 ≤ 2 ^ ctzAux 16 (normalise (raw % 256)) :=
      Nat.pow_le_pow_right (by decide) (by omega)
    have hfalse := Nat.testBit_eq_false_of_lt
      (show normalise (raw % 256) < 2 ^ ctzAux 16 (normalise (raw % 256)) by omega)
    rw [hset] at hfalse
    exact absurd hfalse (by simp)
  · refine ⟨by rw [e]; simp, fun h => absurd hd h.1, ?_⟩
    intro _
    exact ⟨_, e, by simp [emitted, scanActions, pumpCycleActions]⟩
  · refine ⟨by rw [e]; simp, fun h => absurd h h1, ?_⟩
    intro _
    exact ⟨_, e, by simp [emitted, scanActions]⟩

/-- Witness for C16: from the stored frame 0 the raw byte `0x3F` (frame
`0x40`, slot 6 alone) is a rising edge; the raw byte `0xFF` (frame 0) is not
and nothing numeric is printed. -/
theorem ctz_guarded_witness :
    (∃ slot t, builtin_ctz (normalise (0x3F % 256)) = some slot ∧
      handleDiscDetection 0x3F boot = some t ∧
      emitted boot t = scanActions ++
        [.printlnNum (normalise (0x3F % 256)), .print "DROP ", .printlnNum slot] ∧
      slot ≤ 6 ∧
      (normalise (0x3F % 256)).testBit slot = true ∧
      ∀ j, j < slot → (normalise (0x3F % 256)).testBit j = false) ∧
    (∃ t, handleDiscDetection 0xFF boot = some t ∧
      ∀ n, Event.printlnNum n ∉ emitted boot t) :=
  ⟨(ctz_guarded 0x3F boot).2.1 ⟨by decide, rfl⟩,
    (ctz_guarded 0xFF boot).2.2 (by decide)⟩

/-- C17. The pump timeout is correct across the rollover of the 32-bit
`millis()`.  If the pump is running with `pumpStartTime = t0` (as
`turnOnPump()` at clock `t0` leaves it) and `handlePump()` runs when
`millis()` reads `(t0 + e) mod 2^32`, for a true elapsed time `e < 2^32`, then
it shuts the pump off if and only if `e ≥ 30000`. -/
theorem timeout_across_rollover (s : State) (t0 e : Nat)
    (ht : t0 < 2 ^ 32) (he : e < 2 ^ 32)
    (hr : s.pumpRunning = true) (hs : s.pumpStartTime = t0)
    (hc : millis s = (t0 + e) % 2 ^ 32) :
    ((handlePump s).pumpRunning = false ↔ 30000 ≤ e) ∧
    (30000 ≤ e → handlePump s = shutOffPump s) ∧
    (e < 30000 → handlePump s = s) ∧
    (∀ s0 : State, (turnOnPump (atClock t0 s0)).pumpStartTime = t0 ∧
      (turnOnPump (atClock t0 s0)).pumpRunning = true) := by
  have hel : usub32 (millis s) s.pumpStartTime = e := by
    have h := usub32_elapsed t0 e s.clock (by simpa [millis] using hc) he
    have ht0 : t0 % 2 ^ 32 = t0 := Nat.mod_eq_of_lt ht
    rw [ht0] at h
    rw [hs]
    simpa [millis] using h
  have hw := handlePump_running s hr
  rw [hel] at hw
  refine ⟨?_, hw.1, hw.2, ?_⟩
  · constructor
    · intro hf
      by_contra hlt
      rw [hw.2 (by omega), hr] at hf
      exact absurd hf (by simp)
    · intro hge
      rw [hw.1 hge]
      simp [shutOffPump_eq]
  · intro s0
    have ht0 : t0 % 4294967296 = t0 := Nat.mod_eq_of_lt (by simpa using ht)
    simp [atClock, turnOnPump_eq, ht0]

/-- Witness for C17: the pump is started 10 ms before the rollover; 30000 ms
later the counter reads 29990 and the watchdog shuts the pump off. -/
theorem timeout_across_rollover_witness :
    ((handlePump (atClock 29990 (turnOnPump (atClock 4294967286 boot)))).pumpRunning = false ↔
      30000 ≤ 30000) ∧
    (30000 ≤ 30000 →
      handlePump (atClock 29990 (turnOnPump (atClock 4294967286 boot))) =
        shutOffPump (atClock 29990 (turnOnPump (atClock 4294967286 boot)))) ∧
    (30000 < 30000 →
      handlePump (atClock 29990 (turnOnPump (atClock 4294967286 boot))) =
        atClock 29990 (turnOnPump (atClock 4294967286 boot))) ∧
    (∀ s0 : State, (turnOnPump (atClock 4294967286 s0)).pumpStartTime = 4294967286 ∧
      (turnOnPump (atClock 4294967286 s0)).pumpRunning = true) :=
  timeout_across_rollover (atClock 29990 (turnOnPump (atClock 4294967286 boot)))
    4294967286 30000 (by decide) (by decide) (by decide) (by decide) (by decide)

/-- C18. Rising and falling edges strictly alternate.  For every finite
sequence of raw bytes fed to successive `handleDiscDetection` calls from a
state whose stored frame is 0, all calls return, the first reported edge (if
any) is rising, no two consecutive reported edges are equal, and the number
of falling edges, which is the number of pump starts, is at most the number
of rising edges, which is the number of `DROP` reports. -/
theorem edges_alternate (raws : List Nat) (s : State) (h0 : s.last_data = 0) :
    ∃ t, runTicks raws s = some t ∧
      (∀ x ∈ (edgeReports (emitted s t)).head?, x = Edge.Rising) ∧
      List.Chain' (fun x y => x ≠ y) (edgeReports (emitted s t)) ∧
      (edgeReports (emitted s t)).count .Falling ≤ (edgeReports (emitted s t)).count .Rising ∧
      (emitted s t).count (.println "LOG: PUMP ON") =
        (edgeReports (emitted s t)).count .Falling ∧
      (emitted s t).count (.print "DROP ") = (edgeReports (emitted s t)).count .Rising ∧
      (emitted s t).count (.println "LOG: PUMP ON") ≤ (emitted s t).count (.print "DROP ") := by
  obtain ⟨t, a, ht, htt, hchain, hhead, hcount, hpump, hdrop⟩ := runTicks_edges raws s
  have hem : emitted s t = a := by simp [emitted, htt]
  simp only [h0, if_true, Nat.add_zero] at hhead hcount
  refine ⟨t, ht, ?_⟩
  rw [hem]
  exact ⟨hhead, hchain, hcount, hpump, hdrop, by rw [hpump, hdrop]; exact hcount⟩

/-- Witness for C18: the frames 4, 6, 0, 0, 1, 0 (raw bytes `0xFB`, `0xF9`,
`0xFF`, `0xFF`, `0xFE`, `0xFF`) from the power-on state. -/
theorem edges_alternate_witness :
    ∃ t, runTicks [0xFB, 0xF9, 0xFF, 0xFF, 0xFE, 0xFF] boot = some t ∧
      (∀ x ∈ (edgeReports (emitted boot t)).head?, x = Edge.Rising) ∧
      List.Chain' (fun x y => x ≠ y) (edgeReports (emitted boot t)) ∧
      (edgeReports (emitted boot t)).count .Falling ≤
        (edgeReports (emitted boot t)).count .Rising ∧
      (emitted boot t).count (.println "LOG: PUMP ON") =
        (edgeReports (emitted boot t)).count .Falling ∧
      (emitted boot t).count (.print "DROP ") = (edgeReports (emitted boot t)).count .Rising ∧
      (emitted boot t).count (.println "LOG: PUMP ON") ≤
        (emitted boot t).count (.print "DROP ") :=
  edges_alternate [0xFB, 0xF9, 0xFF, 0xFF, 0xFE, 0xFF] boot rfl

/-- C19.  The code at the byte 6 (bits 1 and 2 set): `bit_index` returns 1,
the index of the lowest set bit, while the commented-out loop that its comment
says it is like computes 2, the index of the highest set bit. -/
theorem bit_index_differs_from_loop :
    bit_index 6 = some 1 ∧ bit_index_commented 6 = 2 ∧
      bit_index 6 ≠ some (bit_index_commented 6) := by
  decide

/-- Where `bit_index` and the commented-out loop agree.  For every nonzero
byte `x`, `bit_index(x)` is defined and is at most the value `i` computed by
`int i = 0; while (x >>= 1) i++;`, and the two are equal exactly when `x` has
a single bit set (`x = 2^k`, `k` in 0..7); the loop leaves through its
condition (more fuel changes nothing). -/
theorem bit_index_vs_loop (x : Nat) (h0 : x ≠ 0) (hx : x < 256) :
    ∃ i, bit_index x = some i ∧ i ≤ bit_index_commented x ∧
      (i = bit_index_commented x ↔ ∃ k, k < 8 ∧ x = 2 ^ k) ∧
      (∀ fuel, bit_index_loop (9 + fuel) (x % 256) 0 = bit_index_commented x) := by
  obtain ⟨h1, h2, h3⟩ := bit_index_byte_table x hx h0
  refine ⟨ctzAux 16 x, h1, h2, h3, ?_⟩
  intro fuel
  have hlt : x % 256 < 2 ^ 8 := Nat.mod_lt _ (by decide)
  rw [bit_index_commented, bit_index_loop_fuel 8 (9 + fuel) (x % 256) 0 hlt (by omega)]

/-- The byte 4 has the single bit 2 set: there the two agree. -/
theorem bit_index_vs_loop_witness :
    ∃ i, bit_index 4 = some i ∧ i ≤ bit_index_commented 4 ∧
      (i = bit_index_commented 4 ↔ ∃ k, k < 8 ∧ 4 = 2 ^ k) ∧
      (∀ fuel, bit_index_loop (9 + fuel) (4 % 256) 0 = bit_index_commented 4) :=
  bit_index_vs_loop 4 (by decide) (by decide)

end SensorHandler
